import Mathlib

/-!
Shallow embedding, in Lean 4, of the financial aggregation and projection
engine of the `facturascr` repository
(`src/facturador-app/src/lib/accounting-service.ts`, plus the expense row
normalizer `mapExpenseRow` of the expenses hook).

Modelling conventions:
* JavaScript numbers are modelled as rationals (`ℚ`); `Math.round` is
  half-up rounding toward positive infinity, i.e. `⌊x + 1/2⌋`.
* The value `Infinity` produced by the metrics calculator is modelled by a
  dedicated sum type `JNum` (`fin q` or `inf`).
* Calendar dates that are only ever compared at local midnight (due date vs
  "today") are modelled as integer day numbers; the ambient clock `now` of
  the source is threaded as an explicit `today` parameter.
* Month keys are `String`s exactly as in the source (`issueDate.slice(0,7)`,
  with the sentinel `0000-00` for empty dates); `String.split('-')` followed
  by JavaScript `Number(...)` is modelled on the character list, with any
  segment that is not a plain digit string mapped to the out-of-range value
  13 (JavaScript yields `NaN` there; both are ignored by the 1..12 lookups
  of the seasonality analyzer, which is the only consumer).
-/

namespace Facturas

/-- `round` of accounting-service.ts: `Math.round(value * 100) / 100`,
rounding to two decimal places, halves toward positive infinity. -/
def round (value : ℚ) : ℚ := (⌊value * 100 + 1 / 2⌋ : ℤ) / 100

/-- A rational is an exact multiple of one cent (`0.01`).  Monetary values
produced by the source's own `round` always satisfy this. -/
def Cent (q : ℚ) : Prop := ∃ n : ℤ, q = n / 100

/-- The persisted status enumeration (`accounting_status` in the schema). -/
inductive AccountingStatus where
  | pendiente
  | pagado
  | vencido
deriving DecidableEq, Repr

/-- The invoice lifecycle labels of the UI layer. -/
inductive InvoiceStatus where
  | Pendiente
  | Pagado
  | Vencido
deriving DecidableEq, Repr

/-- `ACCOUNTING_STATUS_TO_LABEL` of ai-context.ts. -/
def ACCOUNTING_STATUS_TO_LABEL : AccountingStatus → InvoiceStatus
  | .pendiente => .Pendiente
  | .pagado => .Pagado
  | .vencido => .Vencido

/-- A raw persisted invoice row (`SupabaseInvoiceRow`).  Dates are modelled
as day numbers (`ℤ`), free-text fields as `String`s. -/
structure SupabaseInvoiceRow where
  id : String
  invoice_number : Option String
  client : Option String
  client_id : Option String
  ruc : Option String
  descr : Option String
  issue_date : Option ℤ
  due_date : Option ℤ
  amount : Option ℚ
  vat : Option ℚ
  total : Option ℚ
  paid : Option ℚ
  payment_method : Option String
  payment_reference : Option String
  payment_date : Option String
  category : Option String
  status : Option AccountingStatus
  retention_ir : Option ℚ
  itf : Option ℚ
deriving DecidableEq, Repr

/-- The normalized `InvoiceRecord` of ai-context.ts. -/
structure InvoiceRecord where
  recordId : String
  id : String
  client : String
  clientId : Option String
  ruc : String
  descr : String
  issueDate : ℤ
  dueDate : ℤ
  amount : ℚ
  vat : ℚ
  total : ℚ
  paid : ℚ
  balance : ℚ
  status : InvoiceStatus
  paymentMethod : Option String
  paymentReference : Option String
  paymentDate : Option String
  retentionIR : ℚ
  itf : ℚ
  category : Option String
deriving DecidableEq, Repr

/-- `withComputedStatus` of accounting-service.ts.  The ambient clock
(`new Date()` at local midnight) is the explicit `today` parameter. -/
def withComputedStatus (invoice : InvoiceRecord)
    (persistedStatus : Option InvoiceStatus) (today : ℤ) : InvoiceRecord :=
  let balance := max (round (invoice.total - invoice.paid)) 0
  let due := invoice.dueDate
  let computedStatus : InvoiceStatus :=
    if balance ≤ 0 then .Pagado else if due < today then .Vencido else .Pendiente
  let status : InvoiceStatus :=
    match persistedStatus with
    | none => computedStatus
    | some ps =>
        if balance ≤ 0 then .Pagado
        else if ps = .Pagado then computedStatus
        else ps
  { invoice with balance := balance, status := status }

/-- `mapInvoiceRow` of accounting-service.ts. -/
def mapInvoiceRow (row : SupabaseInvoiceRow) (today : ℤ) : InvoiceRecord :=
  let amount := row.amount.getD 0
  let vat := row.vat.getD 0
  let total := row.total.getD (round (amount * (1 + vat / 100)))
  let paid := row.paid.getD 0
  let persistedStatus := row.status.map ACCOUNTING_STATUS_TO_LABEL
  withComputedStatus
    { recordId := row.id
      id := row.invoice_number.getD ("SIN-CODIGO")
      client := row.client.getD ("Sin cliente")
      clientId := row.client_id
      ruc := row.ruc.getD ("")
      descr := row.descr.getD ("")
      issueDate := row.issue_date.getD today
      dueDate := (row.due_date.or row.issue_date).getD today
      amount := amount
      vat := vat
      total := total
      paid := paid
      balance := max (total - paid) 0
      status := persistedStatus.getD .Pendiente
      paymentMethod := row.payment_method
      paymentReference := row.payment_reference
      paymentDate := row.payment_date
      retentionIR := (row.retention_ir.getD 0)
      itf := (row.itf.getD 0)
      category := row.category }
    persistedStatus today

/-- A raw persisted expense row (`SupabaseExpenseRow`). -/
structure SupabaseExpenseRow where
  id : String
  document_type : String
  document_series : Option String
  document_number : String
  issue_date : String
  due_date : Option String
  partner_id : Option String
  provider_name : String
  provider_document : Option String
  concept : String
  payment_method : Option String
  operation_number : Option String
  payment_date : Option String
  base_amount : ℚ
  igv_amount : ℚ
  ir_retention : ℚ
  other_taxes : ℚ
  total_amount : ℚ
  category : String
  status : AccountingStatus
  paid_amount : ℚ
  notes : Option String
deriving DecidableEq, Repr

/-- The normalized `ExpenseRecord` of ai-context.ts. -/
structure ExpenseRecord where
  id : String
  documentType : String
  documentSeries : Option String
  documentNumber : String
  issueDate : String
  dueDate : Option String
  partnerId : Option String
  providerName : String
  providerDocument : Option String
  concept : String
  paymentMethod : Option String
  operationNumber : Option String
  paymentDate : Option String
  baseAmount : ℚ
  igvAmount : ℚ
  irRetention : ℚ
  otherTaxes : ℚ
  totalAmount : ℚ
  category : String
  status : AccountingStatus
  paidAmount : ℚ
  notes : Option String
deriving DecidableEq, Repr

/-- `mapExpenseRow` of the expenses hook: field-by-field copy, forcing
`paidAmount = total_amount` whenever the persisted status is `pagado`. -/
def mapExpenseRow (row : SupabaseExpenseRow) : ExpenseRecord :=
  { id := row.id
    documentType := row.document_type
    documentSeries := row.document_series
    documentNumber := row.document_number
    issueDate := row.issue_date
    dueDate := row.due_date
    partnerId := row.partner_id
    providerName := row.provider_name
    providerDocument := row.provider_document
    concept := row.concept
    paymentMethod := row.payment_method
    operationNumber := row.operation_number
    paymentDate := row.payment_date
    baseAmount := row.base_amount
    igvAmount := row.igv_amount
    irRetention := row.ir_retention
    otherTaxes := row.other_taxes
    totalAmount := row.total_amount
    category := row.category
    status := row.status
    paidAmount := if row.status = .pagado then row.total_amount else row.paid_amount
    notes := row.notes }

/-! ### Monthly aggregator (`buildMonthlyAggregates`) -/

/-- `FIXED_COST_CATEGORIES` of accounting-service.ts. -/
def FIXED_COST_CATEGORIES : List String := ["personal", "administrativos", "equipos"]

/-- The record stored per month key in the aggregation map. -/
structure MonthlyEntry where
  income : ℚ
  fixedExpenses : ℚ
  variableExpenses : ℚ
deriving DecidableEq, Repr

/-- The `?? \x7b income: 0, fixedExpenses: 0, variableExpenses: 0 \x7d`
default entry. -/
def emptyEntry : MonthlyEntry := ⟨0, 0, 0⟩

/-- The output `MonthlyAggregate` of accounting-service.ts. -/
structure MonthlyAggregate where
  month : String
  income : ℚ
  fixedExpenses : ℚ
  variableExpenses : ℚ
  totalExpenses : ℚ
deriving DecidableEq, Repr

/-- The invoice shape consumed by `buildMonthlyAggregates`. -/
structure InvoiceLike where
  issueDate : String
  total : ℚ
deriving DecidableEq, Repr

/-- The expense shape consumed by `buildMonthlyAggregates`. -/
structure ExpenseLike where
  issueDate : String
  totalAmount : ℚ
  category : String
deriving DecidableEq, Repr

/-- The local `localMonthKey` helper: `'0000-00'` for an empty date,
otherwise `value.slice(0, 7)`. -/
def localMonthKey (value : String) : String :=
  if value = "" then "0000-00" else value.take 7

/-- The insertion-ordered association list modelling the JavaScript `Map`. -/
abbrev EntryMap := List (String × MonthlyEntry)

/-- `Map.get`: first binding of the key, if any. -/
def mapGet (m : EntryMap) (k : String) : Option MonthlyEntry :=
  match m with
  | [] => none
  | (k', v) :: rest => if k' = k then some v else mapGet rest k

/-- `Map.set`: replace the binding in place, or append a fresh binding at
the end (JavaScript `Map` preserves insertion order). -/
def mapSet (m : EntryMap) (k : String) (v : MonthlyEntry) : EntryMap :=
  match m with
  | [] => [(k, v)]
  | (k', v') :: rest => if k' = k then (k, v) :: rest else (k', v') :: mapSet rest k v

/-- The get-modify-set step shared by the two accumulation loops. -/
def updateEntry (m : EntryMap) (k : String) (f : MonthlyEntry → MonthlyEntry) : EntryMap :=
  mapSet m k (f ((mapGet m k).getD emptyEntry))

/-- One step of the invoice loop of `buildMonthlyAggregates`. -/
def addInvoice (m : EntryMap) (invoice : InvoiceLike) : EntryMap :=
  updateEntry m (localMonthKey invoice.issueDate)
    (fun entry => { entry with income := entry.income + invoice.total })

/-- One step of the expense loop of `buildMonthlyAggregates`. -/
def addExpense (m : EntryMap) (expense : ExpenseLike) : EntryMap :=
  updateEntry m (localMonthKey expense.issueDate)
    (fun entry =>
      if expense.category ∈ FIXED_COST_CATEGORIES then
        { entry with fixedExpenses := entry.fixedExpenses + expense.totalAmount }
      else
        { entry with variableExpenses := entry.variableExpenses + expense.totalAmount })

/-- The key ordering of `.sort((a, b) => a[0].localeCompare(b[0]))`
(lexicographic on the `YYYY-MM` keys). -/
def keyLE (a b : String × MonthlyEntry) : Prop := a.1 ≤ b.1

instance : DecidableRel keyLE := fun a b => inferInstanceAs (Decidable (a.1 ≤ b.1))

instance : IsTotal (String × MonthlyEntry) keyLE := ⟨fun a b => le_total a.1 b.1⟩

instance : IsTrans (String × MonthlyEntry) keyLE := ⟨fun _ _ _ => le_trans⟩

/-- The `Array.from(map.entries()).sort(...)` step.  The keys are pairwise
distinct, so any correct sort produces the same list; the source's
comparison-based sort is modelled by a stable insertion sort. -/
def sortEntries (m : EntryMap) : EntryMap := List.insertionSort keyLE m

/-- The final `.map(([month, data]) => ...)` step of
`buildMonthlyAggregates`: round every monetary sum to two decimals. -/
def toAggregate (p : String × MonthlyEntry) : MonthlyAggregate :=
  { month := p.1
    income := round p.2.income
    fixedExpenses := round p.2.fixedExpenses
    variableExpenses := round p.2.variableExpenses
    totalExpenses := round (p.2.fixedExpenses + p.2.variableExpenses) }

/-- `buildMonthlyAggregates` of accounting-service.ts. -/
def buildMonthlyAggregates (invoices : List InvoiceLike) (expenses : List ExpenseLike) :
    List MonthlyAggregate :=
  let afterInvoices := invoices.foldl addInvoice []
  let monthlyMap := expenses.foldl addExpense afterInvoices
  (sortEntries monthlyMap).map toAggregate

/-- The sum of one monetary component over all entries of the accumulation
map (a proof-side abbreviation). -/
def sumBy (g : MonthlyEntry → ℚ) (m : EntryMap) : ℚ := (m.map (fun p => g p.2)).sum

/-- All three monetary components of a map entry are cent multiples. -/
def CentEntry (e : MonthlyEntry) : Prop :=
  Cent e.income ∧ Cent e.fixedExpenses ∧ Cent e.variableExpenses

/-! ### Projection baseline (`calculateProjectionBaseline`) -/

/-- `ProjectionBaseline` of accounting-service.ts. -/
structure ProjectionBaseline where
  costosFijosReales : ℚ
  tasaCostoVariable : ℚ
  ingresosPromedioRecurrentes : ℚ
  saldoCajaActual : ℚ
deriving DecidableEq, Repr

/-- `calculateProjectionBaseline` of accounting-service.ts.  The
`slice(-lookbackMonths)` trailing window is `drop (length - 6)`. -/
def calculateProjectionBaseline (monthlyAggregates : List MonthlyAggregate)
    (currentCashBalance : ℚ) : ProjectionBaseline :=
  let lookbackMonths : ℕ := 6
  let recentAggregates := monthlyAggregates.drop (monthlyAggregates.length - lookbackMonths)
  if recentAggregates.length = 0 then
    { costosFijosReales := 0
      tasaCostoVariable := 0
      ingresosPromedioRecurrentes := 0
      saldoCajaActual := currentCashBalance }
  else
    let totalFixedExpenses := (recentAggregates.map (·.fixedExpenses)).sum
    let totalVariableExpenses := (recentAggregates.map (·.variableExpenses)).sum
    let totalIncome := (recentAggregates.map (·.income)).sum
    { costosFijosReales := round (totalFixedExpenses / recentAggregates.length)
      tasaCostoVariable :=
        if totalIncome > 0 then round (totalVariableExpenses / totalIncome) else 0
      ingresosPromedioRecurrentes := round (totalIncome / recentAggregates.length)
      saldoCajaActual := currentCashBalance }

/-! ### Financial metrics (`calculateFinancialMetrics`) -/

/-- A JavaScript number that the metrics calculator may set to `Infinity`. -/
inductive JNum where
  | fin : ℚ → JNum
  | inf : JNum
deriving DecidableEq, Repr

/-- `FinancialMetrics` of accounting-service.ts.  The source field
`puntoEquilibrio` (break-even revenue) is named `breakEven` here. -/
structure FinancialMetrics where
  breakEven : JNum
  runway : JNum
deriving DecidableEq, Repr

/-- `calculateFinancialMetrics` of accounting-service.ts. -/
def calculateFinancialMetrics (baseline : ProjectionBaseline) : FinancialMetrics :=
  let contribMargin := 1 - baseline.tasaCostoVariable
  let breakEven : JNum :=
    if contribMargin > 0 then .fin (round (baseline.costosFijosReales / contribMargin))
    else if baseline.costosFijosReales > 0 then .inf
    else .fin 0
  let netCashBurn := baseline.costosFijosReales - baseline.ingresosPromedioRecurrentes
  let runway : JNum :=
    if netCashBurn > 0 then .fin (round (baseline.saldoCajaActual / netCashBurn))
    else .inf
  { breakEven := breakEven, runway := runway }

/-! ### Seasonality analyzer (`analyzeSeasonality`) -/

/-- `String.split('-')` on the character list (the separator is the single
character `'-'`); `''.split('-')` is `['']`. -/
def splitDash : List Char → List (List Char)
  | [] => [[]]
  | c :: cs =>
      if c = '-' then [] :: splitDash cs
      else
        match splitDash cs with
        | [] => [[c]]
        | seg :: rest => (c :: seg) :: rest

/-- JavaScript `Number(...)` applied to a month-key segment: the numeric
value for plain digit strings (`0` for the empty segment), and the
out-of-range sentinel `13` otherwise (JavaScript yields `NaN`; both fall
outside the calendar keys `1..12` that the analyzer reads). -/
def jsMonthNumber (seg : List Char) : ℕ :=
  if seg.all (·.isDigit) then seg.foldl (fun n c => 10 * n + (c.toNat - 48)) 0 else 13

/-- The calendar month extracted from an aggregate's month key:
`const [year, month] = agg.month.split('-').map(Number)` followed by
`month ?? 1` (the `?? 1` fires only when the key has no `'-'` at all). -/
def calendarMonth (key : String) : ℕ :=
  match (splitDash key.data).get? 1 with
  | none => 1
  | some seg => jsMonthNumber seg

/-- The income observations pooled for one calendar month (the
`monthlyByCalendar` grouping loop, in iteration order). -/
def monthIncomes (monthlyAggregates : List MonthlyAggregate) (m : ℕ) : List ℚ :=
  (monthlyAggregates.filter (fun agg => calendarMonth agg.month = m)).map (·.income)

/-- The per-calendar-month average income (`monthAverages`); months with no
observation default to 0. -/
def monthAverage (monthlyAggregates : List MonthlyAggregate) (m : ℕ) : ℚ :=
  let values := monthIncomes monthlyAggregates m
  if values.length > 0 then values.sum / values.length else 0

/-- The global average over the 12 per-month averages (`globalAverage`). -/
def globalAverage (monthlyAggregates : List MonthlyAggregate) : ℚ :=
  let allIncomes := (List.range 12).map (fun i => monthAverage monthlyAggregates (i + 1))
  if allIncomes.length > 0 then allIncomes.sum / allIncomes.length else 0

/-- The raw (pre-dampening) index of one calendar month. -/
def rawIndex (monthlyAggregates : List MonthlyAggregate) (m : ℕ) : ℚ :=
  if globalAverage monthlyAggregates > 0 then
    round (monthAverage monthlyAggregates m / globalAverage monthlyAggregates)
  else 1

/-- The outlier-dampening pass: indices above `2.5` become `2.0`, indices
below `0.3` become `0.5`, everything in between is untouched. -/
def dampen (idx : ℚ) : ℚ :=
  if idx > 5 / 2 then 2 else if idx < 3 / 10 then 1 / 2 else idx

/-- `analyzeSeasonality` of accounting-service.ts, as the function sending
each calendar month key `m ∈ 1..12` to its entry in the returned record
(an empty history yields the all-ones record). -/
def analyzeSeasonality (monthlyAggregates : List MonthlyAggregate) (m : ℕ) : ℚ :=
  if monthlyAggregates.length = 0 then 1
  else dampen (rawIndex monthlyAggregates m)

/-! ### Projector (`projectIncomeWithSeasonality`) -/

/-- One output entry of the projector.  The source renders the month as the
string `YYYY-MM`; the pair `(futureYear, futureMonth)` it is rendered from
is kept instead, so that chronological order is directly statable. -/
structure ProjectedMonth where
  month : ℕ × ℕ
  projectedIncome : ℚ
deriving DecidableEq, Repr

/-- The absolute month number of a `(year, month)` pair, used to state
chronological order. -/
def monthAbs (p : ℕ × ℕ) : ℕ := p.1 * 12 + p.2

/-- `projectIncomeWithSeasonality` of accounting-service.ts.  The ambient
`new Date()` anchor is threaded as `currentYear`/`currentMonth`
(`getFullYear()` and `getMonth() + 1`, so `1 ≤ currentMonth ≤ 12`); the
`new Date(currentYear, currentMonth - 1 + i, 1)` rollover is Euclidean
division of `currentMonth - 1 + i` by 12. -/
def projectIncomeWithSeasonality (monthlyAggregates : List MonthlyAggregate)
    (baselineIncome : ℚ) (projectionMonths : ℕ) (growthFactorMonthly : ℚ)
    (currentYear currentMonth : ℕ) : List ProjectedMonth :=
  (List.range projectionMonths).map (fun j =>
    let i := j + 1
    let monthsAhead := currentMonth - 1 + i
    let futureYear := currentYear + monthsAhead / 12
    let futureMonth := monthsAhead % 12 + 1
    let seasonalityIndex := analyzeSeasonality monthlyAggregates futureMonth
    let growthFactor := growthFactorMonthly ^ i
    { month := (futureYear, futureMonth)
      projectedIncome := round (baselineIncome * seasonalityIndex * growthFactor) })

/-! ## Helper lemmas -/

theorem Cent.zero : Cent 0 := ⟨0, by norm_num⟩

theorem Cent.add {a b : ℚ} (ha : Cent a) (hb : Cent b) : Cent (a + b) := by
  obtain ⟨m, rfl⟩ := ha
  obtain ⟨n, rfl⟩ := hb
  exact ⟨m + n, by push_cast; ring⟩

theorem round_cent {q : ℚ} (h : Cent q) : round q = q := by
  obtain ⟨n, rfl⟩ := h
  unfold round
  have h1 : (n : ℚ) / 100 * 100 = n := by field_simp
  rw [h1, Int.floor_int_add]
  norm_num

/-! ## Claim C6: paid-amount override for `pagado` expenses -/

/-- C6: for every raw expense row whose status is `pagado`, the normalized
record has `paidAmount = totalAmount` regardless of the stored paid amount;
rows with any other status keep their stored paid amount. -/
theorem mapExpenseRow_paid_override (row : SupabaseExpenseRow) :
    (row.status = .pagado →
      (mapExpenseRow row).paidAmount = (mapExpenseRow row).totalAmount) ∧
    (row.status ≠ .pagado → (mapExpenseRow row).paidAmount = row.paid_amount) := by
  constructor <;> intro h <;> simp [mapExpenseRow, h]

/-- Witness for C6: a `pagado` row with stored paid amount 5 and total 118
is normalized to `paidAmount = totalAmount`, while the same row with status
`pendiente` keeps its stored paid amount 5. -/
theorem mapExpenseRow_paid_override_witness :
    (mapExpenseRow ⟨"e1", "factura", none, "001", "2024-01-02", none, none, "Prov", none,
        "c", none, none, none, 100, 18, 0, 0, 118, "servicios", .pagado, 5, none⟩).paidAmount =
      (mapExpenseRow ⟨"e1", "factura", none, "001", "2024-01-02", none, none, "Prov", none,
        "c", none, none, none, 100, 18, 0, 0, 118, "servicios", .pagado, 5, none⟩).totalAmount ∧
    (mapExpenseRow ⟨"e1", "factura", none, "001", "2024-01-02", none, none, "Prov", none,
        "c", none, none, none, 100, 18, 0, 0, 118, "servicios", .pendiente, 5, none⟩).paidAmount = 5 :=
  ⟨(mapExpenseRow_paid_override _).1 rfl,
   (mapExpenseRow_paid_override _).2 (by simp)⟩

/-! ## Claim C7: empty baseline and cash-balance pass-through -/

/-- C7: on the empty aggregate sequence the baseline is all zeros with the
cash balance passed through, and for every input the cash balance argument
is returned unchanged. -/
theorem calculateProjectionBaseline_empty_and_cash :
    (∀ cash : ℚ, calculateProjectionBaseline [] cash =
      { costosFijosReales := 0, tasaCostoVariable := 0,
        ingresosPromedioRecurrentes := 0, saldoCajaActual := cash }) ∧
    (∀ (monthlyAggregates : List MonthlyAggregate) (cash : ℚ),
      (calculateProjectionBaseline monthlyAggregates cash).saldoCajaActual = cash) := by
  constructor
  · intro cash
    rfl
  · intro monthlyAggregates cash
    simp only [calculateProjectionBaseline]
    split <;> rfl

/-! ## Claim C4: break-even cases -/

/-- C4 (amended): the break-even value is `round (fixedCosts / (1 - variableRate))`
— rounded to two decimals — when `1 - variableRate > 0`; `Infinity` when
`1 - variableRate ≤ 0` and fixed costs are strictly positive; and `0` when
fixed costs are `0` and `1 - variableRate ≤ 0`. -/
theorem calculateFinancialMetrics_breakEven_cases (baseline : ProjectionBaseline) :
    (1 - baseline.tasaCostoVariable > 0 →
      (calculateFinancialMetrics baseline).breakEven =
        JNum.fin (round (baseline.costosFijosReales / (1 - baseline.tasaCostoVariable)))) ∧
    (1 - baseline.tasaCostoVariable ≤ 0 → 0 < baseline.costosFijosReales →
      (calculateFinancialMetrics baseline).breakEven = JNum.inf) ∧
    (1 - baseline.tasaCostoVariable ≤ 0 → baseline.costosFijosReales = 0 →
      (calculateFinancialMetrics baseline).breakEven = JNum.fin 0) := by
  refine ⟨fun h => ?_, fun h hc => ?_, fun h hc => ?_⟩ <;>
    simp only [calculateFinancialMetrics]
  · rw [if_pos h]
  · rw [if_neg (not_lt.mpr h), if_pos hc]
  · rw [if_neg (not_lt.mpr h), if_neg (by rw [hc]; exact lt_irrefl 0)]

/-- Counterexample for C4 as stated: with fixed costs 1000 and variable rate
0.7 the claimed exact value `1000 / 0.3` is not what the code returns (the
code rounds to 3333.33). -/
theorem calculateFinancialMetrics_breakEven_not_exact :
    (calculateFinancialMetrics ⟨1000, 7/10, 0, 0⟩).breakEven ≠
      JNum.fin (1000 / (1 - 7/10)) := by
  norm_num [calculateFinancialMetrics, round]

/-- Witness for C4: the three break-even cases at concrete baselines
(`{1000, 0.5}` gives 2000, `{1000, 1.0}` gives `Infinity`, `{0, 1.0}` gives 0). -/
theorem calculateFinancialMetrics_breakEven_witness :
    (calculateFinancialMetrics ⟨1000, 1/2, 0, 0⟩).breakEven =
      JNum.fin (round (1000 / (1 - 1/2))) ∧
    (calculateFinancialMetrics ⟨1000, 1, 0, 0⟩).breakEven = JNum.inf ∧
    (calculateFinancialMetrics ⟨0, 1, 0, 0⟩).breakEven = JNum.fin 0 :=
  ⟨(calculateFinancialMetrics_breakEven_cases ⟨1000, 1/2, 0, 0⟩).1 (by norm_num),
   (calculateFinancialMetrics_breakEven_cases ⟨1000, 1, 0, 0⟩).2.1 (by norm_num) (by norm_num),
   (calculateFinancialMetrics_breakEven_cases ⟨0, 1, 0, 0⟩).2.2 (by norm_num) rfl⟩

/-! ## Claim C5: runway cases -/

/-- C5 (amended): with `netBurn = averageFixedCosts - averageRecurringIncome`,
the runway is `round (cashBalance / netBurn)` — rounded to two decimals —
when `netBurn > 0`, and `Infinity` whenever `netBurn ≤ 0`. -/
theorem calculateFinancialMetrics_runway_cases (baseline : ProjectionBaseline) :
    (baseline.costosFijosReales - baseline.ingresosPromedioRecurrentes > 0 →
      (calculateFinancialMetrics baseline).runway =
        JNum.fin (round (baseline.saldoCajaActual /
          (baseline.costosFijosReales - baseline.ingresosPromedioRecurrentes)))) ∧
    (baseline.costosFijosReales - baseline.ingresosPromedioRecurrentes ≤ 0 →
      (calculateFinancialMetrics baseline).runway = JNum.inf) := by
  refine ⟨fun h => ?_, fun h => ?_⟩ <;> simp only [calculateFinancialMetrics]
  · rw [if_pos h]
  · rw [if_neg (not_lt.mpr h)]

/-- Counterexample for C5 as stated: with fixed costs 3, recurring income 0
and cash 100 the claimed exact value `100 / 3` is not what the code returns
(the code rounds to 33.33). -/
theorem calculateFinancialMetrics_runway_not_exact :
    (calculateFinancialMetrics ⟨3, 0, 0, 100⟩).runway ≠ JNum.fin (100 / 3) := by
  norm_num [calculateFinancialMetrics, round]

/-- Witness for C5: the two runway cases at concrete baselines
(burning 1 per month with cash 10 gives 10 months; Scenario C of the spec,
fixed 1000 against income 1200, gives `Infinity`). -/
theorem calculateFinancialMetrics_runway_witness :
    (calculateFinancialMetrics ⟨2, 0, 1, 10⟩).runway = JNum.fin (round (10 / (2 - 1))) ∧
    (calculateFinancialMetrics ⟨1000, 0, 1200, 500⟩).runway = JNum.inf :=
  ⟨(calculateFinancialMetrics_runway_cases ⟨2, 0, 1, 10⟩).1 (by norm_num),
   (calculateFinancialMetrics_runway_cases ⟨1000, 0, 1200, 500⟩).2 (by norm_num)⟩

/-! ## Claim C3: invoice balance and status resolution -/

/-- C3 (amended): the normalized balance is
`max (round (total - paid)) 0` — the difference is rounded to two decimals
before clamping, `withComputedStatus` recomputing the balance set by
`mapInvoiceRow` — hence never negative; the status is `Pagado` whenever the
balance is ≤ 0, and for a positive balance it is the persisted status
unless that status is `Pagado` (or absent), in which case it is `Vencido`
when the due date is strictly before today and `Pendiente` otherwise. -/
theorem mapInvoiceRow_balance_status (row : SupabaseInvoiceRow) (today : ℤ) :
    ((mapInvoiceRow row today).balance =
      max (round ((row.total.getD (round ((row.amount.getD 0) * (1 + (row.vat.getD 0) / 100)))) -
        row.paid.getD 0)) 0) ∧
    0 ≤ (mapInvoiceRow row today).balance ∧
    ((mapInvoiceRow row today).balance ≤ 0 → (mapInvoiceRow row today).status = .Pagado) ∧
    (0 < (mapInvoiceRow row today).balance →
      (mapInvoiceRow row today).status =
        match row.status.map ACCOUNTING_STATUS_TO_LABEL with
        | some ps =>
            if ps = .Pagado then
              (if (mapInvoiceRow row today).dueDate < today then InvoiceStatus.Vencido
               else InvoiceStatus.Pendiente)
            else ps
        | none =>
            if (mapInvoiceRow row today).dueDate < today then InvoiceStatus.Vencido
            else InvoiceStatus.Pendiente) := by
  refine ⟨?_, ?_, ?_, ?_⟩
  · simp [mapInvoiceRow, withComputedStatus]
  · simp [mapInvoiceRow, withComputedStatus]
  · intro h
    simp only [mapInvoiceRow, withComputedStatus] at h ⊢
    simp only [if_pos h]
    split <;> simp [if_pos h]
  · intro h
    simp only [mapInvoiceRow, withComputedStatus] at h
    cases hst : row.status with
    | none =>
        simp only [mapInvoiceRow, withComputedStatus, hst, Option.map_none']
        simp [not_le.mpr h]
    | some s =>
        simp only [mapInvoiceRow, withComputedStatus, hst, Option.map_some']
        rcases s <;> simp [ACCOUNTING_STATUS_TO_LABEL, not_le.mpr h]

/-- Counterexample for C3 as stated: a row with persisted total 1 and paid
0.005 gets balance `round (0.995) = 1`, not the claimed exact
`max (total - paid, 0) = 0.995`. -/
theorem mapInvoiceRow_balance_not_exact :
    (mapInvoiceRow ⟨"r1", none, none, none, none, none, none, none, none, none,
        some 1, some (1/200), none, none, none, none, none, none, none⟩ 0).balance ≠
      max ((1 : ℚ) - 1/200) 0 := by
  norm_num [mapInvoiceRow, withComputedStatus, round]

/-- Witness for C3: a row with total 100, paid 40 and due day 5 evaluated
with today = 10 has positive balance and resolves to `Vencido`. -/
theorem mapInvoiceRow_balance_status_witness :
    0 < (mapInvoiceRow ⟨"r2", none, none, none, none, none, none, some 5, none, none,
        some 100, some 40, none, none, none, none, none, none, none⟩ 10).balance ∧
    (mapInvoiceRow ⟨"r2", none, none, none, none, none, none, some 5, none, none,
        some 100, some 40, none, none, none, none, none, none, none⟩ 10).status =
      InvoiceStatus.Vencido := by
  have hpos : 0 < (mapInvoiceRow ⟨"r2", none, none, none, none, none, none, some 5, none, none,
      some 100, some 40, none, none, none, none, none, none, none⟩ 10).balance := by
    norm_num [mapInvoiceRow, withComputedStatus, round]
  refine ⟨hpos, ?_⟩
  rw [(mapInvoiceRow_balance_status ⟨"r2", none, none, none, none, none, none, some 5, none, none,
      some 100, some 40, none, none, none, none, none, none, none⟩ 10).2.2.2 hpos]
  norm_num [mapInvoiceRow, withComputedStatus]

/-! ## Claim C1: seasonality index bounds after dampening -/

/-- C1 (amended): every index of the 12-entry mapping is, after the
outlier-dampening step, at least `0.3` and at most `2.5` (raw indices
inside `[0.3, 2.5]` pass through untouched; only indices above `2.5` are
clamped to `2.0` and indices below `0.3` to `0.5`). -/
theorem analyzeSeasonality_bounds (monthlyAggregates : List MonthlyAggregate) (m : ℕ)
    (h1 : 1 ≤ m) (h2 : m ≤ 12) :
    3 / 10 ≤ analyzeSeasonality monthlyAggregates m ∧
    analyzeSeasonality monthlyAggregates m ≤ 5 / 2 := by
  unfold analyzeSeasonality
  split
  · norm_num
  · unfold dampen
    split
    · norm_num
    · split
      · norm_num
      · next hgt hlt => constructor <;> linarith [not_lt.mp hgt, not_lt.mp hlt]

set_option maxHeartbeats 1000000 in
/-- Counterexample for C1 as stated: with history `{2024-01: 1, 2024-02: 4}`
the January index is `2.4`, which survives dampening (it is not above the
`2.5` threshold) and exceeds the claimed upper bound `2.0`. -/
theorem analyzeSeasonality_dampened_above_two :
    analyzeSeasonality [⟨"2024-01", 1, 0, 0, 0⟩, ⟨"2024-02", 4, 0, 0, 0⟩] 1 = 12 / 5 ∧
    ¬ (analyzeSeasonality [⟨"2024-01", 1, 0, 0, 0⟩, ⟨"2024-02", 4, 0, 0, 0⟩] 1 ≤ 2) := by
  have h1 : calendarMonth ("2024-01") = 1 := by decide
  have h2 : calendarMonth ("2024-02") = 2 := by decide
  have hval : analyzeSeasonality [⟨"2024-01", 1, 0, 0, 0⟩, ⟨"2024-02", 4, 0, 0, 0⟩] 1 = 12 / 5 := by
    norm_num [analyzeSeasonality, rawIndex, globalAverage, monthAverage, monthIncomes,
      dampen, round, List.range_succ, h1, h2]
  exact ⟨hval, by rw [hval]; norm_num⟩

/-- Witness for C1: the bounds at the empty history and month 1. -/
theorem analyzeSeasonality_bounds_witness :
    3 / 10 ≤ analyzeSeasonality [] 1 ∧ analyzeSeasonality [] 1 ≤ 5 / 2 :=
  analyzeSeasonality_bounds [] 1 (by norm_num) (by norm_num)

/-! ## Claim C9: unobserved calendar months get index 0.5 -/

/-- C9: for a non-empty history with strictly positive global average
income, every calendar month with no observation gets raw index 0, which
falls below the 0.3 threshold and is raised to 0.5. -/
theorem analyzeSeasonality_missing_month (monthlyAggregates : List MonthlyAggregate) (m : ℕ)
    (hne : monthlyAggregates ≠ []) (hpos : 0 < globalAverage monthlyAggregates)
    (h1 : 1 ≤ m) (h2 : m ≤ 12)
    (hmiss : ∀ agg ∈ monthlyAggregates, calendarMonth agg.month ≠ m) :
    analyzeSeasonality monthlyAggregates m = 1 / 2 := by
  have hfilter : monthIncomes monthlyAggregates m = [] := by
    unfold monthIncomes
    rw [List.map_eq_nil_iff, List.filter_eq_nil_iff]
    intro a ha
    simpa using hmiss a ha
  have havg : monthAverage monthlyAggregates m = 0 := by
    simp [monthAverage, hfilter]
  have hraw : rawIndex monthlyAggregates m = 0 := by
    rw [rawIndex, if_pos hpos, havg]
    norm_num [round]
  rw [analyzeSeasonality, if_neg (by simpa using hne), hraw]
  norm_num [dampen]

set_option maxHeartbeats 1000000 in
/-- Witness for C9: a single January observation leaves February (and every
other month) unobserved; February's index is 0.5. -/
theorem analyzeSeasonality_missing_month_witness :
    analyzeSeasonality [⟨"2024-01", 12, 0, 0, 0⟩] 2 = 1 / 2 :=
  analyzeSeasonality_missing_month [⟨"2024-01", 12, 0, 0, 0⟩] 2 (by simp)
    (by
      have h1 : calendarMonth ("2024-01") = 1 := by decide
      norm_num [globalAverage, monthAverage, monthIncomes, List.range_succ, h1])
    (by norm_num) (by norm_num) (by decide)

/-! ## Claim C8: projector length, order, and flat-growth income -/

/-- C8: the projector always emits exactly the requested number of months,
in strictly ascending chronological order, and with growth factor `1.0`
each entry's income is `round (baselineIncome * seasonalityIndex)` for the
entry's calendar month, the index coming from `analyzeSeasonality` on the
same aggregates. -/
theorem projectIncomeWithSeasonality_spec (monthlyAggregates : List MonthlyAggregate)
    (baselineIncome : ℚ) (projectionMonths : ℕ) (growthFactorMonthly : ℚ)
    (currentYear currentMonth : ℕ) (hcm : 1 ≤ currentMonth) :
    (projectIncomeWithSeasonality monthlyAggregates baselineIncome projectionMonths
        growthFactorMonthly currentYear currentMonth).length = projectionMonths ∧
    List.Chain' (fun a b => monthAbs a.month < monthAbs b.month)
      (projectIncomeWithSeasonality monthlyAggregates baselineIncome projectionMonths
        growthFactorMonthly currentYear currentMonth) ∧
    (growthFactorMonthly = 1 →
      ∀ e ∈ projectIncomeWithSeasonality monthlyAggregates baselineIncome projectionMonths
          growthFactorMonthly currentYear currentMonth,
        e.projectedIncome =
          round (baselineIncome * analyzeSeasonality monthlyAggregates e.month.2)) := by
  refine ⟨?_, ?_, ?_⟩
  · simp [projectIncomeWithSeasonality]
  · apply List.Pairwise.chain'
    unfold projectIncomeWithSeasonality
    rw [List.pairwise_map]
    refine (List.pairwise_lt_range projectionMonths).imp ?_
    intro a b hab
    simp only [monthAbs]
    omega
  · intro hg e he
    unfold projectIncomeWithSeasonality at he
    simp only [List.mem_map, List.mem_range] at he
    obtain ⟨j, hj, rfl⟩ := he
    simp [hg]

/-- Witness for C8: a 2-month projection from November 2024 with empty
history and flat growth. -/
theorem projectIncomeWithSeasonality_spec_witness :
    (projectIncomeWithSeasonality [] 100 2 1 2024 11).length = 2 ∧
    List.Chain' (fun a b => monthAbs a.month < monthAbs b.month)
      (projectIncomeWithSeasonality [] 100 2 1 2024 11) ∧
    ((1 : ℚ) = 1 →
      ∀ e ∈ projectIncomeWithSeasonality [] 100 2 1 2024 11,
        e.projectedIncome = round (100 * analyzeSeasonality [] e.month.2)) :=
  projectIncomeWithSeasonality_spec [] 100 2 1 2024 11 (by norm_num)


/-! ## Accumulation-map lemmas for the aggregator (claims C2 and C10) -/

theorem updateEntry_nil (k : String) (f : MonthlyEntry → MonthlyEntry) :
    updateEntry [] k f = [(k, f emptyEntry)] := rfl

theorem updateEntry_cons (k' : String) (v : MonthlyEntry) (m : EntryMap) (k : String)
    (f : MonthlyEntry → MonthlyEntry) :
    updateEntry ((k', v) :: m) k f =
      if k' = k then (k, f v) :: m else (k', v) :: updateEntry m k f := by
  by_cases h : k' = k <;> simp [updateEntry, mapGet, mapSet, h]

theorem centEntry_empty : CentEntry emptyEntry := ⟨Cent.zero, Cent.zero, Cent.zero⟩

theorem sumBy_updateEntry (g : MonthlyEntry → ℚ) (f : MonthlyEntry → MonthlyEntry) (δ : ℚ)
    (hf : ∀ e, g (f e) = g e + δ) (h0 : g emptyEntry = 0) :
    ∀ (m : EntryMap) (k : String), sumBy g (updateEntry m k f) = sumBy g m + δ
  | [], k => by simp [updateEntry_nil, sumBy, hf, h0]
  | (k', v) :: m, k => by
      rw [updateEntry_cons]
      by_cases h : k' = k
      · simp only [if_pos h, sumBy, List.map_cons, List.sum_cons, hf]
        ring
      · simp only [if_neg h, sumBy, List.map_cons, List.sum_cons]
        have ih := sumBy_updateEntry g f δ hf h0 m k
        simp only [sumBy] at ih
        rw [ih]
        ring

theorem mem_keys_updateEntry (a k : String) (f : MonthlyEntry → MonthlyEntry) :
    ∀ m : EntryMap, (a ∈ (updateEntry m k f).map Prod.fst ↔ a ∈ m.map Prod.fst ∨ a = k)
  | [] => by simp [updateEntry_nil]
  | (k', v) :: m => by
      rw [updateEntry_cons]
      by_cases h : k' = k
      · subst h
        rw [if_pos rfl]
        simp only [List.map_cons, List.mem_cons]
        tauto
      · simp only [if_neg h, List.map_cons, List.mem_cons, mem_keys_updateEntry a k f m]
        tauto

theorem nodup_keys_updateEntry (k : String) (f : MonthlyEntry → MonthlyEntry) :
    ∀ m : EntryMap, (m.map Prod.fst).Nodup → ((updateEntry m k f).map Prod.fst).Nodup
  | [], _ => by simp [updateEntry_nil]
  | (k', v) :: m, h => by
      rw [updateEntry_cons]
      by_cases hk : k' = k
      · simpa [hk] using h
      · simp only [if_neg hk, List.map_cons, List.nodup_cons] at h ⊢
        refine ⟨fun hmem => ?_, nodup_keys_updateEntry k f m h.2⟩
        rcases (mem_keys_updateEntry k' k f m).mp hmem with h1 | h1
        · exact h.1 h1
        · exact hk h1

theorem forall_entries_updateEntry (P : MonthlyEntry → Prop) (f : MonthlyEntry → MonthlyEntry)
    (h0 : P emptyEntry) (hf : ∀ e, P e → P (f e)) :
    ∀ (m : EntryMap) (k : String), (∀ p ∈ m, P p.2) → ∀ p ∈ updateEntry m k f, P p.2
  | [], k, _ => by
      intro p hp
      rw [updateEntry_nil] at hp
      rcases List.mem_singleton.mp hp with rfl
      exact hf _ h0
  | (k', v) :: m, k, hm => by
      rw [updateEntry_cons]
      by_cases hk : k' = k
      · simp only [if_pos hk]
        intro p hp
        rcases List.mem_cons.mp hp with rfl | hp
        · exact hf v (hm (k', v) (List.mem_cons_self _ _))
        · exact hm p (List.mem_cons_of_mem _ hp)
      · simp only [if_neg hk]
        intro p hp
        rcases List.mem_cons.mp hp with rfl | hp
        · exact hm (k', v) (List.mem_cons_self _ _)
        · exact forall_entries_updateEntry P f h0 hf m k
            (fun q hq => hm q (List.mem_cons_of_mem _ hq)) p hp

theorem sumBy_foldl {α : Type} (step : EntryMap → α → EntryMap) (key : α → String)
    (f : α → MonthlyEntry → MonthlyEntry)
    (hstep : ∀ m x, step m x = updateEntry m (key x) (f x))
    (g : MonthlyEntry → ℚ) (δ : α → ℚ) (hf : ∀ x e, g (f x e) = g e + δ x)
    (h0 : g emptyEntry = 0) :
    ∀ (l : List α) (m : EntryMap), sumBy g (l.foldl step m) = sumBy g m + (l.map δ).sum
  | [], m => by simp
  | x :: xs, m => by
      rw [List.foldl_cons, sumBy_foldl step key f hstep g δ hf h0 xs, hstep,
        sumBy_updateEntry g (f x) (δ x) (hf x) h0, List.map_cons, List.sum_cons]
      ring

theorem mem_keys_foldl {α : Type} (step : EntryMap → α → EntryMap) (key : α → String)
    (f : α → MonthlyEntry → MonthlyEntry)
    (hstep : ∀ m x, step m x = updateEntry m (key x) (f x)) :
    ∀ (l : List α) (m : EntryMap) (a : String),
      (a ∈ (l.foldl step m).map Prod.fst ↔ a ∈ m.map Prod.fst ∨ ∃ x ∈ l, key x = a)
  | [], m, a => by simp
  | x :: xs, m, a => by
      rw [List.foldl_cons, mem_keys_foldl step key f hstep xs (step m x) a, hstep,
        mem_keys_updateEntry a (key x) (f x) m]
      simp only [List.mem_cons]
      constructor
      · rintro ((h | rfl) | ⟨y, hy, rfl⟩)
        · exact Or.inl h
        · exact Or.inr ⟨x, Or.inl rfl, rfl⟩
        · exact Or.inr ⟨y, Or.inr hy, rfl⟩
      · rintro (h | ⟨y, (rfl | hy), rfl⟩)
        · exact Or.inl (Or.inl h)
        · exact Or.inl (Or.inr rfl)
        · exact Or.inr ⟨y, hy, rfl⟩

theorem nodup_keys_foldl {α : Type} (step : EntryMap → α → EntryMap) (key : α → String)
    (f : α → MonthlyEntry → MonthlyEntry)
    (hstep : ∀ m x, step m x = updateEntry m (key x) (f x)) :
    ∀ (l : List α) (m : EntryMap),
      (m.map Prod.fst).Nodup → ((l.foldl step m).map Prod.fst).Nodup
  | [], _, h => h
  | x :: xs, m, h => by
      rw [List.foldl_cons]
      exact nodup_keys_foldl step key f hstep xs (step m x)
        (by rw [hstep]; exact nodup_keys_updateEntry (key x) (f x) m h)

theorem forall_entries_foldl {α : Type} (step : EntryMap → α → EntryMap) (key : α → String)
    (f : α → MonthlyEntry → MonthlyEntry)
    (hstep : ∀ m x, step m x = updateEntry m (key x) (f x))
    (P : MonthlyEntry → Prop) (h0 : P emptyEntry) :
    ∀ (l : List α), (∀ x ∈ l, ∀ e, P e → P (f x e)) →
      ∀ (m : EntryMap), (∀ p ∈ m, P p.2) → ∀ p ∈ l.foldl step m, P p.2
  | [], _, m, hm => hm
  | x :: xs, hl, m, hm => by
      rw [List.foldl_cons]
      exact forall_entries_foldl step key f hstep P h0 xs
        (fun y hy => hl y (List.mem_cons_of_mem _ hy)) (step m x)
        (by
          rw [hstep]
          exact forall_entries_updateEntry P (f x) h0 (hl x (List.mem_cons_self _ _)) m (key x) hm)

/-- C2 (amended): for every pair of input collections, every month key
occurs exactly once in the output — unconditionally; and whenever every
invoice `total` and every expense `totalAmount` is an exact multiple of
one cent — which the system's own rounded monetary values always are —
the per-month rounding is the identity and the sums of `income` and of
`fixedExpenses + variableExpenses` over the output equal the input sums
of invoice totals and of expense total amounts. -/
theorem buildMonthlyAggregates_unique_and_sums (invoices : List InvoiceLike)
    (expenses : List ExpenseLike) :
    ((buildMonthlyAggregates invoices expenses).map (·.month)).Nodup ∧
    ((∀ inv ∈ invoices, Cent inv.total) → (∀ e ∈ expenses, Cent e.totalAmount) →
      ((buildMonthlyAggregates invoices expenses).map (·.income)).sum =
        (invoices.map (·.total)).sum ∧
      ((buildMonthlyAggregates invoices expenses).map
          (fun a => a.fixedExpenses + a.variableExpenses)).sum =
        (expenses.map (·.totalAmount)).sum) := by
  have hstepI : ∀ (m : EntryMap) (x : InvoiceLike), addInvoice m x =
      updateEntry m (localMonthKey x.issueDate)
        (fun entry => { entry with income := entry.income + x.total }) := fun _ _ => rfl
  have hstepE : ∀ (m : EntryMap) (x : ExpenseLike), addExpense m x =
      updateEntry m (localMonthKey x.issueDate)
        (fun entry =>
          if x.category ∈ FIXED_COST_CATEGORIES then
            { entry with fixedExpenses := entry.fixedExpenses + x.totalAmount }
          else
            { entry with variableExpenses := entry.variableExpenses + x.totalAmount }) :=
    fun _ _ => rfl
  set m1 := invoices.foldl addInvoice [] with hm1
  set mm := expenses.foldl addExpense m1 with hmm
  have hbuild : buildMonthlyAggregates invoices expenses = (sortEntries mm).map toAggregate := rfl
  have hperm : List.Perm (sortEntries mm) mm := List.perm_insertionSort keyLE mm
  have hnodup2 : (mm.map Prod.fst).Nodup :=
    nodup_keys_foldl addExpense _ _ hstepE expenses m1
      (nodup_keys_foldl addInvoice _ _ hstepI invoices [] (by simp))
  constructor
  · have hmonths : (buildMonthlyAggregates invoices expenses).map (·.month) =
        (sortEntries mm).map Prod.fst := by
      rw [hbuild, List.map_map]; rfl
    rw [hmonths]
    exact ((hperm.map Prod.fst).nodup_iff).mpr hnodup2
  intro hI hE
  have hcent1 : ∀ p ∈ m1, CentEntry p.2 :=
    forall_entries_foldl addInvoice _ _ hstepI CentEntry centEntry_empty invoices
      (fun x hx e he => ⟨he.1.add (hI x hx), he.2.1, he.2.2⟩) [] (by simp)
  have hcent2 : ∀ p ∈ mm, CentEntry p.2 :=
    forall_entries_foldl addExpense _ _ hstepE CentEntry centEntry_empty expenses
      (fun x hx e he => by
        split
        · exact ⟨he.1, he.2.1.add (hE x hx), he.2.2⟩
        · exact ⟨he.1, he.2.1, he.2.2.add (hE x hx)⟩)
      m1 hcent1
  refine ⟨?_, ?_⟩
  · have hs1 : sumBy (fun e => e.income) m1 = (invoices.map (·.total)).sum := by
      have h := sumBy_foldl addInvoice _ _ hstepI (fun e => e.income) (fun x => x.total)
        (fun x e => rfl) rfl invoices []
      simpa [sumBy] using h
    have hs2 : sumBy (fun e => e.income) mm = (invoices.map (·.total)).sum := by
      have h := sumBy_foldl addExpense _ _ hstepE (fun e => e.income) (fun _ => 0)
        (fun x e => by split <;> simp) rfl expenses m1
      rw [h, hs1]
      simp
    rw [hbuild, List.map_map]
    rw [show ((fun a : MonthlyAggregate => a.income) ∘ toAggregate) =
        (fun p : String × MonthlyEntry => round p.2.income) from rfl]
    rw [List.map_congr_left (fun p hp => round_cent (hcent2 p (hperm.subset hp)).1)]
    calc ((sortEntries mm).map (fun p => p.2.income)).sum
        = (mm.map (fun p => p.2.income)).sum := (hperm.map _).sum_eq
      _ = (invoices.map (·.total)).sum := hs2
  · have ht1 : sumBy (fun e => e.fixedExpenses + e.variableExpenses) m1 = 0 := by
      have h := sumBy_foldl addInvoice _ _ hstepI
        (fun e => e.fixedExpenses + e.variableExpenses) (fun _ => 0)
        (fun x e => by simp) (by simp [emptyEntry]) invoices []
      simpa [sumBy] using h
    have ht2 : sumBy (fun e => e.fixedExpenses + e.variableExpenses) mm =
        (expenses.map (·.totalAmount)).sum := by
      have h := sumBy_foldl addExpense _ _ hstepE
        (fun e => e.fixedExpenses + e.variableExpenses) (fun x => x.totalAmount)
        (fun x e => by split <;> simp <;> ring)
        (by simp [emptyEntry]) expenses m1
      rw [h, ht1, zero_add]
    rw [hbuild, List.map_map]
    rw [show ((fun a : MonthlyAggregate => a.fixedExpenses + a.variableExpenses) ∘ toAggregate) =
        (fun p : String × MonthlyEntry =>
          round p.2.fixedExpenses + round p.2.variableExpenses) from rfl]
    rw [List.map_congr_left (fun p hp => by
      rw [round_cent (hcent2 p (hperm.subset hp)).2.1,
        round_cent (hcent2 p (hperm.subset hp)).2.2])]
    calc ((sortEntries mm).map (fun p => p.2.fixedExpenses + p.2.variableExpenses)).sum
        = (mm.map (fun p => p.2.fixedExpenses + p.2.variableExpenses)).sum :=
          (hperm.map _).sum_eq
      _ = (expenses.map (·.totalAmount)).sum := ht2

/-- Counterexample for C2 as stated: a single invoice of 0.005 is rounded
to 0.01 at aggregate construction, so the output income sum differs from
the input total sum. -/
theorem buildMonthlyAggregates_sum_not_exact :
    ((buildMonthlyAggregates [⟨"2024-01-15", 1/200⟩] []).map (·.income)).sum ≠
      (([⟨"2024-01-15", 1/200⟩] : List InvoiceLike).map (·.total)).sum := by
  norm_num [buildMonthlyAggregates, toAggregate, addInvoice, updateEntry, mapGet, mapSet,
    localMonthKey, emptyEntry, sortEntries, round]

/-- Witness for C2: one invoice of 100 and one variable expense of 30,
both cent amounts. -/
theorem buildMonthlyAggregates_unique_and_sums_witness :
    ((buildMonthlyAggregates [⟨"2024-01-15", 100⟩] [⟨"2024-01-20", 30, "servicios"⟩]).map
        (·.month)).Nodup ∧
    ((buildMonthlyAggregates [⟨"2024-01-15", 100⟩] [⟨"2024-01-20", 30, "servicios"⟩]).map
        (·.income)).sum =
      (([⟨"2024-01-15", 100⟩] : List InvoiceLike).map (·.total)).sum ∧
    ((buildMonthlyAggregates [⟨"2024-01-15", 100⟩] [⟨"2024-01-20", 30, "servicios"⟩]).map
        (fun a => a.fixedExpenses + a.variableExpenses)).sum =
      (([⟨"2024-01-20", 30, "servicios"⟩] : List ExpenseLike).map (·.totalAmount)).sum := by
  have h := buildMonthlyAggregates_unique_and_sums [⟨"2024-01-15", 100⟩]
    [⟨"2024-01-20", 30, "servicios"⟩]
  have hsums := h.2
    (by
      intro inv hinv
      rcases List.mem_singleton.mp hinv with rfl
      exact ⟨10000, by norm_num⟩)
    (by
      intro e he
      rcases List.mem_singleton.mp he with rfl
      exact ⟨3000, by norm_num⟩)
  exact ⟨h.1, hsums.1, hsums.2⟩

/-- A sorted list whose minimum is `y` has `y` at its head. -/
theorem head_eq_of_sorted_min {l : List String} (hs : l.Sorted (· ≤ ·)) {y : String}
    (hy : y ∈ l) (hmin : ∀ x ∈ l, y ≤ x) : l.head? = some y := by
  cases l with
  | nil => cases hy
  | cons a t =>
      rcases List.mem_cons.mp hy with rfl | hyt
      · rfl
      · have hay : a ≤ y := (List.sorted_cons.mp hs).1 y hyt
        have hya : y ≤ a := hmin a (List.mem_cons_self a t)
        rw [List.head?_cons, le_antisymm hay hya]

/-- In a list with pairwise-distinct month keys whose head carries month
`a0.month`, any member of any `drop` suffix carrying the same month is that
suffix's head (the suffix must be the whole list). -/
theorem mem_drop_head (out : List MonthlyAggregate) (a0 : MonthlyAggregate)
    (hh : out.head? = some a0) (hnd : (out.map (·.month)).Nodup) (d : ℕ)
    (a : MonthlyAggregate) (ha : a ∈ out.drop d) (hm : a.month = a0.month) :
    (out.drop d).head? = some a := by
  cases out with
  | nil => simp at hh
  | cons b t =>
      rw [List.head?_cons, Option.some.injEq] at hh
      subst hh
      have haout : a ∈ b :: t := List.drop_subset d (b :: t) ha
      have hab : a = b := by
        rcases List.mem_cons.mp haout with rfl | hat
        · rfl
        · exfalso
          simp only [List.map_cons, List.nodup_cons] at hnd
          exact hnd.1 (hm ▸ List.mem_map_of_mem (·.month) hat)
      subst hab
      cases d with
      | zero => simp
      | succ e =>
          exfalso
          have hat : a ∈ t := List.drop_subset e t (by simpa using ha)
          simp only [List.map_cons, List.nodup_cons] at hnd
          exact hnd.1 (List.mem_map_of_mem (·.month) hat)

/-- C10: every record with an empty `issueDate` is bucketed under the
synthetic key `0000-00` (never dropped); since that key sorts
lexicographically before every real `YYYY-MM` key (the stated hypotheses),
the `0000-00` aggregate is the first element of the output, and whenever it
belongs to a trailing window `slice(-n)` of the output it occupies the
window's first (oldest) position. -/
theorem buildMonthlyAggregates_empty_date_first (invoices : List InvoiceLike)
    (expenses : List ExpenseLike)
    (hsome : (∃ inv ∈ invoices, inv.issueDate = "") ∨ (∃ e ∈ expenses, e.issueDate = ""))
    (hIlt : ∀ inv ∈ invoices, inv.issueDate ≠ "" → "0000-00" < localMonthKey inv.issueDate)
    (hElt : ∀ e ∈ expenses, e.issueDate ≠ "" → "0000-00" < localMonthKey e.issueDate) :
    localMonthKey ("") = "0000-00" ∧
    (∃ a, (buildMonthlyAggregates invoices expenses).head? = some a ∧ a.month = "0000-00") ∧
    (∀ (n : ℕ) (a : MonthlyAggregate),
      a ∈ (buildMonthlyAggregates invoices expenses).drop
            ((buildMonthlyAggregates invoices expenses).length - n) →
      a.month = "0000-00" →
      ((buildMonthlyAggregates invoices expenses).drop
          ((buildMonthlyAggregates invoices expenses).length - n)).head? = some a) := by
  have hstepI : ∀ (m : EntryMap) (x : InvoiceLike), addInvoice m x =
      updateEntry m (localMonthKey x.issueDate)
        (fun entry => { entry with income := entry.income + x.total }) := fun _ _ => rfl
  have hstepE : ∀ (m : EntryMap) (x : ExpenseLike), addExpense m x =
      updateEntry m (localMonthKey x.issueDate)
        (fun entry =>
          if x.category ∈ FIXED_COST_CATEGORIES then
            { entry with fixedExpenses := entry.fixedExpenses + x.totalAmount }
          else
            { entry with variableExpenses := entry.variableExpenses + x.totalAmount }) :=
    fun _ _ => rfl
  set m1 := invoices.foldl addInvoice [] with hm1
  set mm := expenses.foldl addExpense m1 with hmm
  have hbuild : buildMonthlyAggregates invoices expenses = (sortEntries mm).map toAggregate := rfl
  have hperm : List.Perm (sortEntries mm) mm := List.perm_insertionSort keyLE mm
  have hkey0 : localMonthKey ("") = "0000-00" := by simp [localMonthKey]
  have hkeymem : "0000-00" ∈ mm.map Prod.fst := by
    rcases hsome with ⟨inv, hinv, hdate⟩ | ⟨e, he, hdate⟩
    · have h1 : "0000-00" ∈ m1.map Prod.fst := by
        rw [hm1]
        exact (mem_keys_foldl addInvoice _ _ hstepI invoices [] _).mpr
          (Or.inr ⟨inv, hinv, by rw [hdate, hkey0]⟩)
      exact (mem_keys_foldl addExpense _ _ hstepE expenses m1 _).mpr (Or.inl h1)
    · exact (mem_keys_foldl addExpense _ _ hstepE expenses m1 _).mpr
        (Or.inr ⟨e, he, by rw [hdate, hkey0]⟩)
  have hlb : ∀ k ∈ mm.map Prod.fst, "0000-00" ≤ k := by
    intro k hk
    rcases (mem_keys_foldl addExpense _ _ hstepE expenses m1 k).mp hk with hk1 | ⟨x, hx, rfl⟩
    · rcases (mem_keys_foldl addInvoice _ _ hstepI invoices [] k).mp hk1 with h0 | ⟨x, hx, rfl⟩
      · simp at h0
      · by_cases hd : x.issueDate = ""
        · rw [hd, hkey0]
        · exact le_of_lt (hIlt x hx hd)
    · by_cases hd : x.issueDate = ""
      · rw [hd, hkey0]
      · exact le_of_lt (hElt x hx hd)
  have hnodup2 : (mm.map Prod.fst).Nodup :=
    nodup_keys_foldl addExpense _ _ hstepE expenses m1
      (nodup_keys_foldl addInvoice _ _ hstepI invoices [] (by simp))
  have hsorted : ((sortEntries mm).map Prod.fst).Sorted (· ≤ ·) :=
    List.Pairwise.map Prod.fst (fun a b h => h) (List.sorted_insertionSort keyLE mm)
  have hmonths_eq : (buildMonthlyAggregates invoices expenses).map (·.month) =
      (sortEntries mm).map Prod.fst := by
    rw [hbuild, List.map_map]; rfl
  have hxmem : "0000-00" ∈ (sortEntries mm).map Prod.fst :=
    ((hperm.map Prod.fst).mem_iff).mpr hkeymem
  have hmin : ∀ x ∈ (sortEntries mm).map Prod.fst, "0000-00" ≤ x := fun x hx =>
    hlb x ((hperm.map Prod.fst).mem_iff.mp hx)
  have hhead : ((buildMonthlyAggregates invoices expenses).map (·.month)).head? =
      some "0000-00" := by
    rw [hmonths_eq]
    exact head_eq_of_sorted_min hsorted hxmem hmin
  rw [List.head?_map] at hhead
  obtain ⟨a0, ha0, ha0m⟩ := Option.map_eq_some'.mp hhead
  have hnodupm : ((buildMonthlyAggregates invoices expenses).map (·.month)).Nodup := by
    rw [hmonths_eq]
    exact ((hperm.map Prod.fst).nodup_iff).mpr hnodup2
  refine ⟨hkey0, ⟨a0, ha0, ha0m⟩, ?_⟩
  intro n a ha hm
  exact mem_drop_head _ a0 ha0 hnodupm _ a ha (by rw [hm, ha0m])

/-- Witness for C10: one invoice with empty issue date next to one dated
`2024-01-10`. -/
theorem buildMonthlyAggregates_empty_date_first_witness :
    localMonthKey ("") = "0000-00" ∧
    (∃ a, (buildMonthlyAggregates [⟨"", 5⟩, ⟨"2024-01-10", 7⟩] []).head? = some a ∧
      a.month = "0000-00") ∧
    (∀ (n : ℕ) (a : MonthlyAggregate),
      a ∈ (buildMonthlyAggregates [⟨"", 5⟩, ⟨"2024-01-10", 7⟩] []).drop
            ((buildMonthlyAggregates [⟨"", 5⟩, ⟨"2024-01-10", 7⟩] []).length - n) →
      a.month = "0000-00" →
      ((buildMonthlyAggregates [⟨"", 5⟩, ⟨"2024-01-10", 7⟩] []).drop
          ((buildMonthlyAggregates [⟨"", 5⟩, ⟨"2024-01-10", 7⟩] []).length - n)).head? =
        some a) :=
  buildMonthlyAggregates_empty_date_first [⟨"", 5⟩, ⟨"2024-01-10", 7⟩] []
    (Or.inl ⟨⟨"", 5⟩, by simp, rfl⟩)
    (by
      intro inv hinv hne
      rcases List.mem_cons.mp hinv with rfl | hinv'
      · exact absurd rfl hne
      · rcases List.mem_singleton.mp hinv' with rfl
        have hk : localMonthKey ("2024-01-10") = "2024-01" := by decide
        rw [hk, String.lt_iff_toList_lt]
        decide)
    (fun e he => absurd he (List.not_mem_nil e))

end Facturas
